import Mathlib

/-!
Shallow embedding of src/escraper/parsers/radario.py (class Radario).

Python strings are modelled as Lean String values, which are logically
lists of characters.  The helper functions below mirror exactly the
Python string operations the source uses: str.strip, str.lower,
str.replace, str.split, str.find, and the three re.sub substitutions of
the address cleaner.  Machine-level details that are external
collaborators per the module (HTTP transport, HTML stripping, emoji
annotation, the base-class timezone) are passed in as explicit function
parameters or modelled as injective encodings; each such spot carries a
comment.
-/

/-- Python str.strip removes leading and trailing whitespace; the
whitespace characters relevant here are the ASCII ones. -/
def pyIsSpaceChar (c : Char) : Bool :=
  c == ' ' || c == '\t' || c == '\n' || c == '\r' || c.toNat == 11 || c.toNat == 12

/-- Python str.strip on the character list. -/
def pyStripList (l : List Char) : List Char :=
  ((l.dropWhile pyIsSpaceChar).reverse.dropWhile pyIsSpaceChar).reverse

/-- Python str.strip. -/
def pyStrip (s : String) : String :=
  String.mk (pyStripList s.data)

/-- Python str.lower for one character, restricted to the alphabets that
occur in this source: ASCII letters and Russian Cyrillic letters
(U+0410..U+042F map to U+0430..U+044F, and U+0401 maps to U+0451). -/
def pyLowerChar (c : Char) : Char :=
  if 0x410 ≤ c.toNat ∧ c.toNat ≤ 0x42F then Char.ofNat (c.toNat + 0x20)
  else if c.toNat = 0x401 then Char.ofNat 0x451
  else if 65 ≤ c.toNat ∧ c.toNat ≤ 90 then Char.ofNat (c.toNat + 32)
  else c

/-- Python str.lower, applied per character. -/
def pyLower (s : String) : String :=
  String.mk (s.data.map pyLowerChar)

/-- Python str.find on character lists: index of the first occurrence of
pat, or none for -1. -/
def idxOfSub (pat : List Char) : List Char → Option Nat
  | [] => if pat.isEmpty then some 0 else none
  | c :: cs =>
    if pat.isPrefixOf (c :: cs) then some 0
    else (idxOfSub pat cs).map (· + 1)

/-- Python substring membership test, pat in s, which is the find test
against -1. -/
def containsSub (s : String) (pat : String) : Bool :=
  (idxOfSub pat.data s.data).isSome

/-- Python str.replace on character lists, leftmost non-overlapping, all
occurrences.  The fuel argument is instantiated with the length of the
input list, which always suffices because every step consumes at least
one character. -/
def replAux (pat repl : List Char) : Nat → List Char → List Char
  | _, [] => []
  | 0, l => l
  | fuel + 1, c :: cs =>
    if pat ≠ [] ∧ pat.isPrefixOf (c :: cs) then
      repl ++ replAux pat repl fuel ((c :: cs).drop pat.length)
    else
      c :: replAux pat repl fuel cs

/-- Python str.replace. -/
def pyReplace (s pat repl : String) : String :=
  String.mk (replAux pat.data repl.data s.data.length s.data)

/-- Matcher for one or more ASCII digits: on success returns the input
with the maximal digit run removed. -/
def tryNum (l : List Char) : Option (List Char) :=
  let ds := l.takeWhile Char.isDigit
  if ds.isEmpty then none else some (l.drop ds.length)

/-- Matcher for the regular expressions of the address cleaner, of shape
space, digits, terminator: on success returns the rest of the input after
the whole match. -/
def tryPat (term : List Char) : List Char → Option (List Char)
  | ' ' :: rest =>
    match tryNum rest with
    | some r => if term.isPrefixOf r then some (r.drop term.length) else none
    | none => none
  | _ => none

/-- Python re.sub for a pattern of shape space, digits, terminator:
leftmost scan, non-overlapping, continue after each match.  The fuel is
instantiated with the input length, which suffices because every step
consumes at least one character. -/
def subAux (term repl : List Char) : Nat → List Char → List Char
  | _, [] => []
  | 0, l => l
  | fuel + 1, c :: cs =>
    match tryPat term (c :: cs) with
    | some rest => repl ++ subAux term repl fuel rest
    | none => c :: subAux term repl fuel cs

/-- Python re.sub over a character list for the space-digits-terminator
patterns of the address cleaner. -/
def pySub (term repl : List Char) (l : List Char) : List Char :=
  subAux term repl l.length l

/-- Python re.sub with the anchored pattern of leading digits followed by
a comma and a space, replaced by nothing. -/
def subLeadNum (l : List Char) : List Char :=
  let ds := l.takeWhile Char.isDigit
  if ds.isEmpty then l
  else if [',', ' '].isPrefixOf (l.drop ds.length) then (l.drop ds.length).drop 2
  else l

/-- Python split on one separator character; the result list is never
empty, mirroring str.split. -/
def splitChar (sep : Char) : List Char → List (List Char)
  | [] => [[]]
  | c :: cs =>
    match splitChar sep cs with
    | [] => [[c]]
    | g :: gs => if c = sep then [] :: g :: gs else (c :: g) :: gs

/-- Python url.split with the slash separator, last element: the trailing
path segment of a URL. -/
def lastSegment (u : String) : String :=
  String.mk ((splitChar '/' u.data).getLastD [])

/-- Prefix of a character list up to the first dot: Python
str(x).split with a dot separator, first element. -/
def takeUntilDot : List Char → List Char
  | [] => []
  | c :: cs => if c = '.' then [] else c :: takeUntilDot cs

/-- One raw JSON record of the Radario API, with the fields the parser
reads.  A JSON null is modelled as none.  minPrice holds the Python str
rendering of the JSON number, since the source manipulates it only
through str and split. -/
structure RawDetail where
  id : Nat
  title : String
  description : Option String
  beginDate : String
  endDate : String
  placeAddress : String
  placeTitle : String
  cityName : Option String
  superTagName : String
  minPrice : String
  currency : String
  imageUri : Option String
  ticketCount : Nat
deriving DecidableEq

/-- The mutable per-instance state the field mappers touch: the stashed
values self underscore date from and date to, set by the date extractors
and read by the combined formatter.  none models the attribute not yet
being set. -/
structure FieldSt where
  dateFromS : Option String
  dateToS : Option String
deriving DecidableEq

/-- External collaborator functions, out of scope per the module: the
HTML stripping utility, the emoji annotation utility, and the post text
preparation of the base class. -/
structure Collab where
  removeHtml : String → String
  addEmoji : String → String
  prepPost : String → String

/-- Modelled from the spec: datetime.strptime with the fixed format plus
astimezone with the base-class timezone (both outside src) are modelled
as an injective encoding keeping the raw timestamp text.  No claim
depends on date arithmetic, only on data flow of the parsed dates. -/
def parseDT (s : String) : String := s

/-- The class attribute with the fixed source tag, "RADARIO-". -/
def parserPrefix : String := "RADARIO-"

/-- The class attribute BASE_URL. -/
def baseUrl : String := "https://radario.ru/events/"

/-- Canonical id of a raw numeric id: the fixed source tag concatenated
with the decimal rendering, as in the method underscore id. -/
def radarioId (n : Nat) : String := parserPrefix ++ toString n

/-- The address cleaning pipeline of the method underscore adress before
the online test: strip, drop the administrative district suffix, and the
three zip code substitutions, in source order. -/
def addrNormalized (r : RawDetail) : String :=
  let a0 := pyStrip r.placeAddress
  let a1 := pyReplace a0 ", Центральный район" ""
  let a2 := String.mk (pySub [' '] [' '] a1.data)
  let a3 := String.mk (pySub [',', ' '] [' '] a2.data)
  String.mk (subLeadNum a3.data)

/-- Value of the method underscore adress: online sentinel when the
cleaned text contains the online marker, otherwise the city name segment
is removed in prefix or suffix form when present. -/
def adressVal (r : RawDetail) : String :=
  let fa := addrNormalized r
  if containsSub (pyLower fa) "онлайн" then "Онлайн"
  else
    let city := r.cityName.getD "Санкт-Петербург"
    match idxOfSub (", " ++ city).data fa.data with
    | some i => String.mk (fa.data.take i)
    | none =>
      if (idxOfSub (city ++ ", ").data fa.data).isSome then pyReplace fa (city ++ ", ") ""
      else fa

/-- Method underscore adress, with the instance state threaded through
explicitly; the method never writes instance state. -/
def _adress (st : FieldSt) (r : RawDetail) : String × FieldSt :=
  (adressVal r, st)

/-- Method underscore category. -/
def _category (st : FieldSt) (r : RawDetail) : String × FieldSt :=
  (pyStrip r.superTagName, st)

/-- Method underscore date from: parses beginDate and stashes the result
in the instance state before returning it. -/
def _date_from (st : FieldSt) (r : RawDetail) : String × FieldSt :=
  (parseDT r.beginDate, { st with dateFromS := some (parseDT r.beginDate) })

/-- Method underscore date to: parses endDate and stashes the result in
the instance state before returning it. -/
def _date_to (st : FieldSt) (r : RawDetail) : String × FieldSt :=
  (parseDT r.endDate, { st with dateToS := some (parseDT r.endDate) })

/-- Method underscore date from to: reads only the stashed instance
state, not the record; none models the AttributeError raised when the
date extractors have not run yet. -/
def _date_from_to (st : FieldSt) (r : RawDetail) : Option String × FieldSt :=
  (match st.dateFromS, st.dateToS with
   | some a, some b => some (a ++ "-#" ++ b)
   | _, _ => none, st)

/-- Method underscore id. -/
def _id (st : FieldSt) (r : RawDetail) : String × FieldSt :=
  (radarioId r.id, st)

/-- Method underscore place name. -/
def _place_name (st : FieldSt) (r : RawDetail) : String × FieldSt :=
  (pyStrip r.placeTitle, st)

/-- Value of the method underscore full text: empty when the description
is null or empty (Python falsiness), otherwise the description with the
break markup turned into newlines and then HTML stripped. -/
def fullTextVal (collab : Collab) (r : RawDetail) : String :=
  match r.description with
  | some d => if d = "" then "" else collab.removeHtml (pyReplace d "<br/>" "\n")
  | none => ""

/-- Method underscore full text. -/
def _full_text (collab : Collab) (st : FieldSt) (r : RawDetail) : String × FieldSt :=
  (fullTextVal collab r, st)

/-- Method underscore post text. -/
def _post_text (collab : Collab) (st : FieldSt) (r : RawDetail) : String × FieldSt :=
  (collab.prepPost (fullTextVal collab r), st)

/-- Method underscore poster imag: the image URI passed through when
present, otherwise the implicit Python None. -/
def _poster_imag (st : FieldSt) (r : RawDetail) : Option String × FieldSt :=
  (match r.imageUri with
   | some u => some u
   | none => none, st)

/-- Value of the method underscore price: the str rendering of minPrice
up to the first dot, concatenated with the currency text where RUB is
replaced by the ruble sign. -/
def priceVal (r : RawDetail) : String :=
  String.mk (takeUntilDot r.minPrice.data) ++ pyReplace r.currency "RUB" "₽"

/-- Method underscore price. -/
def _price (st : FieldSt) (r : RawDetail) : String × FieldSt :=
  (priceVal r, st)

/-- Method underscore title. -/
def _title (collab : Collab) (st : FieldSt) (r : RawDetail) : String × FieldSt :=
  (collab.addEmoji (pyStrip r.title), st)

/-- Method underscore url. -/
def _url (st : FieldSt) (r : RawDetail) : String × FieldSt :=
  (baseUrl ++ pyReplace (radarioId r.id) parserPrefix "", st)

/-- Method underscore is registration open. -/
def _is_registration_open (st : FieldSt) (r : RawDetail) : Bool × FieldSt :=
  (r.ticketCount != 0, st)

/-- Method categories to id: the static dictionary; looking up a missing
key is a Python KeyError, modelled as none. -/
def categoriesToId (c : String) : Option Nat :=
  [("concert", 1), ("theatre", 2), ("museum", 3), ("education", 4), ("sport", 5),
   ("entertainment", 6), ("kids", 380), ("show", 1598), ("Active", 1669)].lookup c

/-- Method cities to id: the static dictionary over the lowercased city
name; a missing key is a Python KeyError, modelled as none. -/
def citiesToId (c : String) : Option Nat :=
  [("spb", 1), ("kzn", 85), ("msk", 2)].lookup c

/-- The class attribute AVAILABLE_CATEGORIES. -/
def availableCategories : List String :=
  ["concert", "theatre", "museum", "education", "sport", "entertainment", "kids", "show"]

/-- Canonical event record assembled from one raw detail record.  The
base class enumerating ALL_EVENT_TAGS is outside src, so all fields are
populated, which is the default of both entry points. -/
structure CEvent where
  id : String
  title : String
  url : String
  adress : String
  category : String
  dateFrom : String
  dateTo : String
  dateFromTo : Option String
  price : String
  postText : String
  fullText : String
  image : Option String
  isRegOpen : Bool
  placeName : String
deriving DecidableEq

/-- Modelled from the spec: the base-class parse method (the Event
Assembler, outside src) invokes the field extraction functions and
combines the results into one canonical record; the date extractors run
before the combined date formatter. -/
def assemble (collab : Collab) (r : RawDetail) : CEvent :=
  let st0 : FieldSt := { dateFromS := none, dateToS := none }
  let p1 := _date_from st0 r
  let p2 := _date_to p1.2 r
  let p3 := _date_from_to p2.2 r
  { id := (_id p3.2 r).1
  , title := (_title collab p3.2 r).1
  , url := (_url p3.2 r).1
  , adress := (_adress p3.2 r).1
  , category := (_category p3.2 r).1
  , dateFrom := p1.1
  , dateTo := p2.1
  , dateFromTo := p3.1
  , price := (_price p3.2 r).1
  , postText := (_post_text collab p3.2 r).1
  , fullText := (_full_text collab p3.2 r).1
  , image := (_poster_imag p3.2 r).1
  , isRegOpen := (_is_registration_open p3.2 r).1
  , placeName := (_place_name p3.2 r).1 }

/-- One HTTP response of the per-event detail endpoint: status code,
response text, and the decoded JSON body. -/
structure DetailResp where
  status : Nat
  text : String
  json : RawDetail
deriving DecidableEq

/-- One page request of the list endpoint, with every parameter the
source puts into the query: the date range (abstract instants, see
mkCtx), city id, page limit, offset, online flag, and the optional
category id. -/
structure Req where
  fromD : Int
  toD : Int
  cityId : Nat
  limit : Nat
  offset : Nat
  online : Bool
  superTag : Option Nat
deriving DecidableEq

/-- The external world of one run: the list endpoint (none models a
falsy response object, which the source turns into an empty page), the
detail endpoint keyed by the id string, and the current date as an
abstract day index. -/
structure Env where
  page : Req → Option (List Nat)
  detailResp : String → DetailResp
  today : Int

/-- The error message of get_event when both identifying inputs are
missing. -/
def precondMsg : String := "\x27event_id\x27 or \x27event_url\x27 required."

/-- The error message of get_event on a non-200 detail response. -/
def fetchMsg (resp : DetailResp) : String :=
  "Failed to fetch events. HTTP " ++ toString resp.status ++ ": " ++ resp.text

/-- Detail fetch and mapping of get_event once an id string is in hand:
error exactly on a non-200 status, otherwise the assembled canonical
event. -/
def fetchById (env : Env) (collab : Collab) (i : String) : Except String CEvent :=
  let resp := env.detailResp i
  if resp.status ≠ 200 then Except.error (fetchMsg resp)
  else Except.ok (assemble collab resp.json)

/-- Method get_event: with no id but a url, the id is the trailing path
segment; with neither, a ValueError; with an id, the url is ignored. -/
def getEvent (env : Env) (collab : Collab) (eventId eventUrl : Option String) :
    Except String CEvent :=
  match eventId, eventUrl with
  | none, some u => fetchById env collab (lastSegment u)
  | none, none => Except.error precondMsg
  | some i, _ => fetchById env collab i

/-- The state of one get_events run: accumulated events, the shared seen
id list, the page offset (shared across categories, never reset), the
warnings emitted so far, the page requests issued so far, and the
pending exception if one was raised. -/
structure St where
  events : List CEvent
  existed : List String
  offset : Nat
  warns : List String
  reqs : List Req
  err : Option String
deriving DecidableEq

/-- The page limit of get_events. -/
def pageLimit : Nat := 21

/-- The constant part of one run: the environment, the collaborators,
and the query parameters computed before the category loop. -/
structure Ctx where
  env : Env
  collab : Collab
  fromD : Int
  toD : Int
  cityId : Nat
  isOnline : Bool

/-- The page request issued at one offset. -/
def mkReq (ctx : Ctx) (catId : Option Nat) (off : Nat) : Req :=
  { fromD := ctx.fromD, toD := ctx.toD, cityId := ctx.cityId, limit := pageLimit
  , offset := off, online := ctx.isOnline, superTag := catId }

/-- The inner item loop of get_events: for each summary id, the would-be
canonical id is checked against the seen list; on a miss the detail is
fetched through get_event, the event appended and its id recorded; a
raised error stops everything. -/
def processItems (ctx : Ctx) : List Nat → St → St
  | [], st => st
  | i :: rest, st =>
    if st.err.isSome then st
    else if radarioId i ∈ st.existed then processItems ctx rest st
    else
      match getEvent ctx.env ctx.collab (some (toString i)) none with
      | Except.error m => { st with err := some m }
      | Except.ok ev =>
        processItems ctx rest
          { st with events := st.events ++ [ev], existed := st.existed ++ [ev.id] }

/-- The while loop of get_events for one category: request pages while
the offset is at most 100, process the items, stop on an error or on a
page shorter than the limit, otherwise advance the offset by limit minus
one.  The fuel argument is instantiated with 7, which the lemma
pageLoop_fuel_step shows is never exhausted, since the offset grows by
20 every iteration and requests stop beyond 100. -/
def pageLoop (ctx : Ctx) (catId : Option Nat) : Nat → St → St
  | 0, st => st
  | fuel + 1, st =>
    if 100 < st.offset then st
    else
      let rq := mkReq ctx catId st.offset
      let items := (ctx.env.page rq).getD []
      let st1 := { st with reqs := st.reqs ++ [rq] }
      let st2 := processItems ctx items st1
      if st2.err.isSome then st2
      else if items.length < pageLimit then st2
      else pageLoop ctx catId fuel { st2 with offset := st2.offset + (pageLimit - 1) }

/-- The UserWarning message for an unknown category name. -/
def warnMsg (c : String) : String :=
  "Category \x27" ++ c ++ "\x27 is not exist"

/-- The category id put into the query: absent for the empty default
category, otherwise the dictionary value; valid categories are all
present in the dictionary, so the fallback 0 is dead. -/
def catIdOf (c : String) : Option Nat :=
  if c = "" then none else some ((categoriesToId c).getD 0)

/-- The category loop of get_events: known categories (or the empty
default) run the page loop, anything else only appends a warning; a
pending error stops the loop, as the Python exception would. -/
def catLoop (ctx : Ctx) : List String → St → St
  | [], st => st
  | c :: cs, st =>
    if st.err.isSome then st
    else if c ∈ availableCategories ++ [""] then
      catLoop ctx cs (pageLoop ctx (catIdOf c) 7 st)
    else
      catLoop ctx cs { st with warns := st.warns ++ [warnMsg c] }

/-- The recognized request parameters of get_events.  dateFrom and
dateTo are carried because the docstring documents them, but the source
never reads them. -/
structure ReqParams where
  city : Option String := none
  online : Bool := false
  category : Option (List String) := none
  days : Option Int := none
  dateFrom : Option String := none
  dateTo : Option String := none
deriving DecidableEq

/-- The initial state of one get_events run for a given shared seen-id
list. -/
def initSt (existed : List String) : St :=
  { events := [], existed := existed, offset := 0, warns := [], reqs := [], err := none }

/-- The run constants computed at the head of get_events: from date is
tomorrow, to date is from date plus the days parameter or plus 8. -/
def mkCtx (env : Env) (collab : Collab) (rp : ReqParams) (cityId : Nat) : Ctx :=
  { env := env, collab := collab
  , fromD := env.today + 1
  , toD := env.today + 1 + (match rp.days with | some d => d | none => 8)
  , cityId := cityId
  , isOnline := rp.online }

/-- Method get_events: resolve the city (default id 1, unknown names are
a KeyError), compute the date range, then run the category loop from the
initial state. -/
def getEvents (env : Env) (collab : Collab) (rp : ReqParams) (existed : List String) : St :=
  match rp.city with
  | none => catLoop (mkCtx env collab rp 1) (rp.category.getD [""]) (initSt existed)
  | some c =>
    match citiesToId (pyLower c) with
    | some cid => catLoop (mkCtx env collab rp cid) (rp.category.getD [""]) (initSt existed)
    | none => { initSt existed with err := some ("KeyError: " ++ pyLower c) }

/-- Invariant of the deduplicating run relative to the initial seen-id
list: the seen list is the initial one extended by exactly the ids of
the emitted events, no emitted id was initially seen, and the emitted
ids are pairwise distinct. -/
def InvD (ex0 : List String) (st : St) : Prop :=
  st.existed = ex0 ++ st.events.map (fun e => e.id) ∧
  (∀ e ∈ st.events, e.id ∉ ex0) ∧
  (st.events.map (fun e => e.id)).Nodup

/-- Consistency of the upstream API: the detail record fetched for a
summary id carries that same id.  The dedupe claims are relative to
this, since the skip test uses the summary id while the recorded id
comes from the detail record. -/
def DetailIdsMatch (env : Env) : Prop :=
  ∀ rq : Req, ∀ i ∈ (env.page rq).getD [], ((env.detailResp (toString i)).json).id = i

/-- A trivial raw record used by concrete witnesses. -/
def rawW : RawDetail :=
  { id := 0, title := "", description := none, beginDate := "", endDate := ""
  , placeAddress := "", placeTitle := "", cityName := none, superTagName := ""
  , minPrice := "0", currency := "RUB", imageUri := none, ticketCount := 0 }

/-- A raw record with a chosen id, used by concrete witnesses. -/
def rawWid (n : Nat) : RawDetail := { rawW with id := n }

/-- Identity collaborators used by concrete witnesses. -/
def collabW : Collab :=
  { removeHtml := fun s => s, addEmoji := fun s => s, prepPost := fun s => s }

/-- An environment whose list endpoint always returns an empty page. -/
def envW1 : Env :=
  { page := fun _ => some []
  , detailResp := fun _ => { status := 200, text := "", json := rawW }
  , today := 0 }

/-- Request parameters with one valid and one invalid category, used by
the C1 witness. -/
def rpW1 : ReqParams := { category := some ["concert", "badcat"] }

/-- An environment with fixed date index 1000 and empty pages, used by
the C2 theorem. -/
def envW2 : Env :=
  { page := fun _ => some []
  , detailResp := fun _ => { status := 200, text := "", json := rawW }
  , today := 1000 }

/-- Request parameters carrying explicit date_from and date_to values,
the failing input of C2. -/
def rpW2 : ReqParams := { dateFrom := some "2020-01-01", dateTo := some "2020-01-02" }

/-- A stashed-state value used by the C3 counterexample. -/
def stA : FieldSt :=
  { dateFromS := some "2020-01-01T10:00:00.000000+0300", dateToS := some "2020-01-01T12:00:00.000000+0300" }

/-- Another stashed-state value differing only in the stored begin date,
used by the C3 counterexample. -/
def stB : FieldSt :=
  { dateFromS := some "1999-01-01T00:00:00.000000+0300", dateToS := some "2020-01-01T12:00:00.000000+0300" }

/-- An environment whose single page repeats an id, used by the C4
witness: ids 3 and 4, with id 3 listed twice. -/
def envW4 : Env :=
  { page := fun rq => if rq.offset = 0 then some [3, 4, 3] else some []
  , detailResp := fun s =>
      if s = "3" then { status := 200, text := "", json := rawWid 3 }
      else if s = "4" then { status := 200, text := "", json := rawWid 4 }
      else { status := 200, text := "", json := rawWid 0 }
  , today := 0 }

/-- Default request parameters, used by witnesses. -/
def rpW4 : ReqParams := {}

/-- An environment whose first page is full and whose later pages are
empty, used by the C6 witness. -/
def envW6 : Env :=
  { page := fun rq => if rq.offset = 0 then some (List.range 21) else some []
  , detailResp := fun _ => { status := 200, text := "", json := rawW }
  , today := 0 }

/-- A run context over envW6, used by the C6 witness. -/
def ctxW6 : Ctx :=
  { env := envW6, collab := collabW, fromD := 1, toD := 9, cityId := 1, isOnline := false }

/-- A raw record whose address contains the online marker in upper case
among other text, used by the C10 witness. -/
def recW10 : RawDetail :=
  { rawW with
    placeAddress := "  Большой зал, ОНЛАЙН-трансляция, 190000, Санкт-Петербург  ",
    cityName := some "Санкт-Петербург" }

/-- A raw record with a description containing break markup, used by the
C8 witness. -/
def recW8 : RawDetail := { rawW with description := some "Hello<br/>World" }

/-- A raw record with the price fixture of the spec, used by the C9
witness. -/
def recW9 : RawDetail := { rawW with minPrice := "1234.56", currency := "RUB" }

theorem takeUntilDot_append (a b : List Char) (h : '.' ∉ a) :
    takeUntilDot (a ++ '.' :: b) = a := by
  induction a with
  | nil => simp [takeUntilDot]
  | cons c cs ih =>
    have h1 : '.' ≠ c ∧ '.' ∉ cs := by simpa [List.mem_cons, not_or] using h
    simp only [List.cons_append, takeUntilDot]
    rw [if_neg (fun e => h1.1 e.symm)]
    exact congrArg (List.cons c) (ih h1.2)

/-- Claim C5: for every raw record the canonical id is the fixed source
tag concatenated with the decimal rendering of the raw numeric id, a
repeated mapping of the same record yields the same id, and the mapping
leaves the parser state unchanged. -/
theorem radario_C5 (st : FieldSt) (r : RawDetail) :
    (_id st r).1 = "RADARIO-" ++ toString r.id ∧
    (_id ((_id st r).2) r).1 = (_id st r).1 ∧
    (_id st r).2 = st :=
  ⟨rfl, rfl, rfl⟩

/-- Claim C9: for every raw record whose price text is an integer part
(free of dots) followed by a dot and a fractional part, and whose
currency is RUB, the price mapping is the integer part concatenated with
the ruble sign; the fractional part is dropped. -/
theorem radario_C9 (st : FieldSt) (r : RawDetail) (ip fp : String)
    (h1 : r.minPrice = ip ++ "." ++ fp) (h2 : '.' ∉ ip.data) (h3 : r.currency = "RUB") :
    (_price st r).1 = ip ++ "₽" := by
  simp only [_price, priceVal, h1, h3]
  have hd : (ip ++ "." ++ fp).data = ip.data ++ '.' :: fp.data := by
    simp [String.data_append]
  rw [hd, takeUntilDot_append _ _ h2]
  have hr : pyReplace "RUB" "RUB" "₽" = "₽" := by decide
  rw [hr]

/-- Witness for C9 at the fixture of the spec: price 1234.56 with
currency RUB maps to the truncated integer with the ruble sign. -/
theorem radario_C9_witness :
    (_price { dateFromS := none, dateToS := none } recW9).1 = "1234" ++ "₽" :=
  radario_C9 _ recW9 "1234" "56" (by decide) (by decide) rfl

/-- Claim C3 counterexample: the combined date formatter returns
different values for the same raw record under two different stashed
parser states, so its result does not depend only on the record, and the
begin date extractor mutates the parser state. -/
theorem radario_C3_counterexample :
    (_date_from_to stA rawW).1 ≠ (_date_from_to stB rawW).1 ∧
    (_date_from stA rawW).2 ≠ stA := by
  decide

/-- Claim C3 amended: every per-field extraction function other than the
date ones is pure and stateless, the two date extractors return a value
depending only on the record but stash it into the parser state, and the
combined date formatter depends only on that stashed state, not on the
record passed to it. -/
theorem radario_C3_pure_except_dates (collab : Collab) (st st' : FieldSt) (r r' : RawDetail) :
    ((_adress st r).1 = (_adress st' r).1 ∧ (_adress st r).2 = st) ∧
    ((_category st r).1 = (_category st' r).1 ∧ (_category st r).2 = st) ∧
    ((_id st r).1 = (_id st' r).1 ∧ (_id st r).2 = st) ∧
    ((_place_name st r).1 = (_place_name st' r).1 ∧ (_place_name st r).2 = st) ∧
    ((_full_text collab st r).1 = (_full_text collab st' r).1 ∧ (_full_text collab st r).2 = st) ∧
    ((_post_text collab st r).1 = (_post_text collab st' r).1 ∧ (_post_text collab st r).2 = st) ∧
    ((_poster_imag st r).1 = (_poster_imag st' r).1 ∧ (_poster_imag st r).2 = st) ∧
    ((_price st r).1 = (_price st' r).1 ∧ (_price st r).2 = st) ∧
    ((_title collab st r).1 = (_title collab st' r).1 ∧ (_title collab st r).2 = st) ∧
    ((_url st r).1 = (_url st' r).1 ∧ (_url st r).2 = st) ∧
    ((_is_registration_open st r).1 = (_is_registration_open st' r).1 ∧
      (_is_registration_open st r).2 = st) ∧
    ((_date_from st r).1 = (_date_from st' r).1 ∧
      (_date_from st r).2 = { st with dateFromS := some (parseDT r.beginDate) }) ∧
    ((_date_to st r).1 = (_date_to st' r).1 ∧
      (_date_to st r).2 = { st with dateToS := some (parseDT r.endDate) }) ∧
    ((_date_from_to st r).1 = (_date_from_to st r').1 ∧ (_date_from_to st r).2 = st) := by
  repeat' apply And.intro
  all_goals rfl

/-- Claim C8: the full text mapping is empty for a null description and
otherwise is the description with break markup turned into newlines and
then HTML stripped, assuming the external stripper is empty on the empty
string. -/
theorem radario_C8 (collab : Collab) (st : FieldSt) (r : RawDetail)
    (hstrip : collab.removeHtml "" = "") :
    (_full_text collab st r).1 =
      (match r.description with
       | none => ""
       | some s => collab.removeHtml (pyReplace s "<br/>" "\n")) := by
  cases hdesc : r.description with
  | none => simp [_full_text, fullTextVal, hdesc]
  | some s =>
    by_cases hs : s = ""
    · subst hs
      have hz : pyReplace "" "<br/>" "\n" = "" := rfl
      simp [_full_text, fullTextVal, hdesc, hz, hstrip]
    · simp [_full_text, fullTextVal, hdesc, hs]

/-- Witness for C8 at a record with a break marker in its description. -/
theorem radario_C8_witness :
    (_full_text collabW { dateFromS := none, dateToS := none } recW8).1 =
      (match recW8.description with
       | none => ""
       | some s => collabW.removeHtml (pyReplace s "<br/>" "\n")) :=
  radario_C8 collabW _ recW8 rfl

/-- Claim C10: whenever the cleaned address text contains the online
marker case-insensitively, the address mapping is the fixed online
sentinel, regardless of the rest of the text. -/
theorem radario_C10 (st : FieldSt) (r : RawDetail)
    (h : containsSub (pyLower (addrNormalized r)) "онлайн" = true) :
    (_adress st r).1 = "Онлайн" := by
  simp [_adress, adressVal, h]

/-- Witness for C10 at an address with an upper-case online marker, a
zip code, and a trailing city name. -/
theorem radario_C10_witness :
    (_adress { dateFromS := none, dateToS := none } recW10).1 = "Онлайн" :=
  radario_C10 _ recW10 (by decide)

/-- Claim C7: get_event with neither id nor url raises the precondition
error; with only a url it behaves as if called with the trailing path
segment as id; with an id it errors exactly on a non-200 detail status
and otherwise returns the mapped canonical event. -/
theorem radario_C7 (env : Env) (collab : Collab) (u i : String) :
    getEvent env collab none none = Except.error precondMsg ∧
    getEvent env collab none (some u) = getEvent env collab (some (lastSegment u)) none ∧
    getEvent env collab (some i) none =
      (if (env.detailResp i).status ≠ 200 then Except.error (fetchMsg (env.detailResp i))
       else Except.ok (assemble collab (env.detailResp i).json)) :=
  ⟨rfl, rfl, rfl⟩

theorem assemble_id (collab : Collab) (d : RawDetail) :
    (assemble collab d).id = radarioId d.id := rfl

theorem pageLoop_succ (ctx : Ctx) (catId : Option Nat) (fuel : Nat) (st : St) :
    pageLoop ctx catId (fuel + 1) st =
      (if 100 < st.offset then st
       else
         let rq := mkReq ctx catId st.offset
         let items := (ctx.env.page rq).getD []
         let st2 := processItems ctx items { st with reqs := st.reqs ++ [rq] }
         if st2.err.isSome then st2
         else if items.length < pageLimit then st2
         else pageLoop ctx catId fuel { st2 with offset := st2.offset + (pageLimit - 1) }) := rfl

theorem processItems_offset (ctx : Ctx) (items : List Nat) :
    ∀ st : St, (processItems ctx items st).offset = st.offset := by
  induction items with
  | nil => intro st; rfl
  | cons i rest ih =>
    intro st
    by_cases h1 : st.err.isSome
    · simp [processItems, h1]
    · by_cases h2 : radarioId i ∈ st.existed
      · simp [processItems, h1, h2, ih]
      · cases hg : getEvent ctx.env ctx.collab (some (toString i)) none with
        | error m => simp [processItems, h1, h2, hg]
        | ok ev => simp [processItems, h1, h2, hg, ih]

theorem processItems_reqs (ctx : Ctx) (items : List Nat) :
    ∀ st : St, (processItems ctx items st).reqs = st.reqs := by
  induction items with
  | nil => intro st; rfl
  | cons i rest ih =>
    intro st
    by_cases h1 : st.err.isSome
    · simp [processItems, h1]
    · by_cases h2 : radarioId i ∈ st.existed
      · simp [processItems, h1, h2, ih]
      · cases hg : getEvent ctx.env ctx.collab (some (toString i)) none with
        | error m => simp [processItems, h1, h2, hg]
        | ok ev => simp [processItems, h1, h2, hg, ih]

theorem processItems_warnsComm (ctx : Ctx) (items : List Nat) :
    ∀ (st : St) (w : List String),
      processItems ctx items { st with warns := w } =
        { processItems ctx items st with warns := w } := by
  induction items with
  | nil => intro st w; rfl
  | cons i rest ih =>
    intro st w
    by_cases h1 : st.err.isSome
    · simp [processItems, h1]
    · by_cases h2 : radarioId i ∈ st.existed
      · have e1 : processItems ctx (i :: rest) { st with warns := w } =
            processItems ctx rest { st with warns := w } := by
          simp [processItems, h1, h2]
        have e2 : processItems ctx (i :: rest) st = processItems ctx rest st := by
          simp [processItems, h1, h2]
        rw [e1, e2, ih]
      · cases hg : getEvent ctx.env ctx.collab (some (toString i)) none with
        | error m => simp [processItems, h1, h2, hg]
        | ok ev =>
          have e1 : processItems ctx (i :: rest) { st with warns := w } =
              processItems ctx rest
                { st with
                  events := st.events ++ [ev],
                  existed := st.existed ++ [ev.id],
                  warns := w } := by
            simp [processItems, h1, h2, hg]
          have e2 : processItems ctx (i :: rest) st =
              processItems ctx rest
                { st with events := st.events ++ [ev], existed := st.existed ++ [ev.id] } := by
            simp [processItems, h1, h2, hg]
          rw [e1, e2]
          exact ih { st with events := st.events ++ [ev], existed := st.existed ++ [ev.id] } w

theorem pageLoop_warnsComm (ctx : Ctx) (catId : Option Nat) :
    ∀ (fuel : Nat) (st : St) (w : List String),
      pageLoop ctx catId fuel { st with warns := w } =
        { pageLoop ctx catId fuel st with warns := w } := by
  intro fuel
  induction fuel with
  | zero => intro st w; rfl
  | succ f ih =>
    intro st w
    obtain ⟨ev, ex, off, ws, rqs, er⟩ := st
    rw [pageLoop_succ, pageLoop_succ]
    by_cases ho : 100 < off
    · simp [ho]
    · simp only [if_neg ho]
      have hcomm := processItems_warnsComm ctx
        ((ctx.env.page (mkReq ctx catId off)).getD [])
        ⟨ev, ex, off, ws, rqs ++ [mkReq ctx catId off], er⟩ w
      simp only [] at hcomm ⊢
      rw [show (⟨ev, ex, off, w, rqs ++ [mkReq ctx catId off], er⟩ : St) =
            ({ (⟨ev, ex, off, ws, rqs ++ [mkReq ctx catId off], er⟩ : St) with warns := w } : St)
          from rfl, hcomm]
      set y := processItems ctx ((ctx.env.page (mkReq ctx catId off)).getD [])
        ⟨ev, ex, off, ws, rqs ++ [mkReq ctx catId off], er⟩ with hy
      by_cases hye : y.err.isSome
      · simp [hye]
      · by_cases hl : ((ctx.env.page (mkReq ctx catId off)).getD []).length < pageLimit
        · simp [hye, hl]
        · simp only [hye, hl, Bool.false_eq_true, if_false]
          exact ih { y with offset := y.offset + (pageLimit - 1) } w

theorem pageLoop_warns (ctx : Ctx) (catId : Option Nat) (fuel : Nat) (st : St) :
    (pageLoop ctx catId fuel st).warns = st.warns := by
  have h := pageLoop_warnsComm ctx catId fuel st st.warns
  rw [show ({ st with warns := st.warns } : St) = st from rfl] at h
  have := congrArg St.warns h
  simpa using this

theorem catLoop_of_err (ctx : Ctx) (cats : List String) (st : St)
    (h : st.err.isSome = true) : catLoop ctx cats st = st := by
  cases cats with
  | nil => rfl
  | cons c cs => simp [catLoop, h]

theorem catLoop_agree (ctx : Ctx) :
    ∀ (cats : List String) (st₁ st₂ : St),
      st₁.events = st₂.events → st₁.existed = st₂.existed → st₁.offset = st₂.offset →
      st₁.reqs = st₂.reqs → st₁.err = st₂.err →
      (catLoop ctx cats st₁).events = (catLoop ctx cats st₂).events ∧
      (catLoop ctx cats st₁).existed = (catLoop ctx cats st₂).existed ∧
      (catLoop ctx cats st₁).offset = (catLoop ctx cats st₂).offset ∧
      (catLoop ctx cats st₁).reqs = (catLoop ctx cats st₂).reqs ∧
      (catLoop ctx cats st₁).err = (catLoop ctx cats st₂).err := by
  intro cats
  induction cats with
  | nil => intro st₁ st₂ h1 h2 h3 h4 h5; exact ⟨h1, h2, h3, h4, h5⟩
  | cons c cs ih =>
    intro st₁ st₂ h1 h2 h3 h4 h5
    obtain ⟨e1, x1, o1, w1, r1, er1⟩ := st₁
    obtain ⟨e2, x2, o2, w2, r2, er2⟩ := st₂
    simp only at h1 h2 h3 h4 h5
    subst h1; subst h2; subst h3; subst h4; subst h5
    cases er1 with
    | some m =>
      rw [catLoop_of_err ctx (c :: cs) ⟨e1, x1, o1, w1, r1, some m⟩ rfl,
        catLoop_of_err ctx (c :: cs) ⟨e1, x1, o1, w2, r1, some m⟩ rfl]
      exact ⟨rfl, rfl, rfl, rfl, rfl⟩
    | none =>
      by_cases hc : c ∈ availableCategories ++ [""]
      · have u1 : catLoop ctx (c :: cs) (⟨e1, x1, o1, w1, r1, none⟩ : St) =
            catLoop ctx cs (pageLoop ctx (catIdOf c) 7 ⟨e1, x1, o1, w1, r1, none⟩) := by
          simp [catLoop, hc]
        have u2 : catLoop ctx (c :: cs) (⟨e1, x1, o1, w2, r1, none⟩ : St) =
            catLoop ctx cs (pageLoop ctx (catIdOf c) 7 ⟨e1, x1, o1, w2, r1, none⟩) := by
          simp [catLoop, hc]
        rw [u1, u2]
        have hpw : pageLoop ctx (catIdOf c) 7 (⟨e1, x1, o1, w2, r1, none⟩ : St) =
            { pageLoop ctx (catIdOf c) 7 ⟨e1, x1, o1, w1, r1, none⟩ with warns := w2 } := by
          have := pageLoop_warnsComm ctx (catIdOf c) 7 ⟨e1, x1, o1, w1, r1, none⟩ w2
          exact this
        rw [hpw]
        exact ih _ _ rfl rfl rfl rfl rfl
      · have u1 : catLoop ctx (c :: cs) (⟨e1, x1, o1, w1, r1, none⟩ : St) =
            catLoop ctx cs ⟨e1, x1, o1, w1 ++ [warnMsg c], r1, none⟩ := by
          simp [catLoop, hc]
        have u2 : catLoop ctx (c :: cs) (⟨e1, x1, o1, w2, r1, none⟩ : St) =
            catLoop ctx cs ⟨e1, x1, o1, w2 ++ [warnMsg c], r1, none⟩ := by
          simp [catLoop, hc]
        rw [u1, u2]
        exact ih _ _ rfl rfl rfl rfl rfl

theorem catLoop_warns_mono (ctx : Ctx) :
    ∀ (cats : List String) (st : St) (x : String),
      x ∈ st.warns → x ∈ (catLoop ctx cats st).warns := by
  intro cats
  induction cats with
  | nil => intro st x hx; exact hx
  | cons c cs ih =>
    intro st x hx
    by_cases he : st.err.isSome
    · rw [catLoop_of_err ctx _ _ he]; exact hx
    · by_cases hc : c ∈ availableCategories ++ [""]
      · have u1 : catLoop ctx (c :: cs) st =
            catLoop ctx cs (pageLoop ctx (catIdOf c) 7 st) := by
          simp [catLoop, he, hc]
        rw [u1]
        apply ih
        rw [pageLoop_warns]
        exact hx
      · have u1 : catLoop ctx (c :: cs) st =
            catLoop ctx cs { st with warns := st.warns ++ [warnMsg c] } := by
          simp [catLoop, he, hc]
        rw [u1]
        apply ih
        simp only []
        exact List.mem_append_left _ hx

theorem catLoop_skip_invalid (ctx : Ctx) (bad : String)
    (hbad : bad ∉ availableCategories ++ [""]) :
    ∀ (l1 l2 : List String) (st : St),
      ((catLoop ctx (l1 ++ bad :: l2) st).events = (catLoop ctx (l1 ++ l2) st).events ∧
       (catLoop ctx (l1 ++ bad :: l2) st).existed = (catLoop ctx (l1 ++ l2) st).existed ∧
       (catLoop ctx (l1 ++ bad :: l2) st).offset = (catLoop ctx (l1 ++ l2) st).offset ∧
       (catLoop ctx (l1 ++ bad :: l2) st).reqs = (catLoop ctx (l1 ++ l2) st).reqs ∧
       (catLoop ctx (l1 ++ bad :: l2) st).err = (catLoop ctx (l1 ++ l2) st).err) ∧
      ((catLoop ctx (l1 ++ bad :: l2) st).err = none →
        warnMsg bad ∈ (catLoop ctx (l1 ++ bad :: l2) st).warns) := by
  intro l1
  induction l1 with
  | nil =>
    intro l2 st
    simp only [List.nil_append]
    by_cases he : st.err.isSome
    · rw [catLoop_of_err ctx (bad :: l2) st he, catLoop_of_err ctx l2 st he]
      refine ⟨⟨rfl, rfl, rfl, rfl, rfl⟩, ?_⟩
      intro h
      rw [h] at he
      simp at he
    · have hstep : catLoop ctx (bad :: l2) st =
          catLoop ctx l2 { st with warns := st.warns ++ [warnMsg bad] } := by
        simp [catLoop, he, hbad]
      rw [hstep]
      constructor
      · exact catLoop_agree ctx l2 _ st rfl rfl rfl rfl rfl
      · intro _
        apply catLoop_warns_mono
        simp only []
        exact List.mem_append_right _ (by simp)
  | cons c rest ih =>
    intro l2 st
    by_cases he : st.err.isSome
    · rw [catLoop_of_err ctx ((c :: rest) ++ bad :: l2) st he,
        catLoop_of_err ctx ((c :: rest) ++ l2) st he]
      refine ⟨⟨rfl, rfl, rfl, rfl, rfl⟩, ?_⟩
      intro h
      rw [h] at he
      simp at he
    · by_cases hc : c ∈ availableCategories ++ [""]
      · have u1 : catLoop ctx ((c :: rest) ++ bad :: l2) st =
            catLoop ctx (rest ++ bad :: l2) (pageLoop ctx (catIdOf c) 7 st) := by
          simp [catLoop, he, hc]
        have u2 : catLoop ctx ((c :: rest) ++ l2) st =
            catLoop ctx (rest ++ l2) (pageLoop ctx (catIdOf c) 7 st) := by
          simp [catLoop, he, hc]
        rw [u1, u2]
        exact ih l2 _
      · have u1 : catLoop ctx ((c :: rest) ++ bad :: l2) st =
            catLoop ctx (rest ++ bad :: l2) { st with warns := st.warns ++ [warnMsg c] } := by
          simp [catLoop, he, hc]
        have u2 : catLoop ctx ((c :: rest) ++ l2) st =
            catLoop ctx (rest ++ l2) { st with warns := st.warns ++ [warnMsg c] } := by
          simp [catLoop, he, hc]
        rw [u1, u2]
        exact ih l2 _

/-- Claim C1: in a multi-category request, a category name outside the
available set changes none of the returned events, the recorded ids, or
the error outcome, compared to the same request without it, and on an
error-free run its warning message is emitted; in particular the invalid
name contributes zero events and every valid category still returns its
events. -/
theorem radario_C1 (env : Env) (collab : Collab) (rp : ReqParams) (existed : List String)
    (l1 l2 : List String) (bad : String)
    (hbad : bad ∉ availableCategories ++ [""])
    (hcat : rp.category = some (l1 ++ bad :: l2)) :
    (getEvents env collab rp existed).events =
      (getEvents env collab { rp with category := some (l1 ++ l2) } existed).events ∧
    (getEvents env collab rp existed).existed =
      (getEvents env collab { rp with category := some (l1 ++ l2) } existed).existed ∧
    (getEvents env collab rp existed).err =
      (getEvents env collab { rp with category := some (l1 ++ l2) } existed).err ∧
    ((getEvents env collab rp existed).err = none →
      warnMsg bad ∈ (getEvents env collab rp existed).warns) := by
  obtain ⟨city, online, category, days, dfrom, dto⟩ := rp
  simp only at hcat
  subst hcat
  cases city with
  | none =>
    have u1 : getEvents env collab ⟨none, online, some (l1 ++ bad :: l2), days, dfrom, dto⟩ existed =
        catLoop (mkCtx env collab ⟨none, online, some (l1 ++ bad :: l2), days, dfrom, dto⟩ 1)
          (l1 ++ bad :: l2) (initSt existed) := rfl
    have u2 : getEvents env collab ⟨none, online, some (l1 ++ l2), days, dfrom, dto⟩ existed =
        catLoop (mkCtx env collab ⟨none, online, some (l1 ++ bad :: l2), days, dfrom, dto⟩ 1)
          (l1 ++ l2) (initSt existed) := rfl
    rw [u1, u2]
    obtain ⟨hA, hB⟩ := catLoop_skip_invalid
      (mkCtx env collab ⟨none, online, some (l1 ++ bad :: l2), days, dfrom, dto⟩ 1)
      bad hbad l1 l2 (initSt existed)
    exact ⟨hA.1, hA.2.1, hA.2.2.2.2, hB⟩
  | some c =>
    cases hcid : citiesToId (pyLower c) with
    | some cid =>
      have u1 : getEvents env collab ⟨some c, online, some (l1 ++ bad :: l2), days, dfrom, dto⟩
          existed =
          catLoop (mkCtx env collab ⟨some c, online, some (l1 ++ bad :: l2), days, dfrom, dto⟩ cid)
            (l1 ++ bad :: l2) (initSt existed) := by
        simp [getEvents, hcid]
      have u2 : getEvents env collab ⟨some c, online, some (l1 ++ l2), days, dfrom, dto⟩ existed =
          catLoop (mkCtx env collab ⟨some c, online, some (l1 ++ bad :: l2), days, dfrom, dto⟩ cid)
            (l1 ++ l2) (initSt existed) := by
        simp [getEvents, hcid]
        rfl
      rw [u1, u2]
      obtain ⟨hA, hB⟩ := catLoop_skip_invalid
        (mkCtx env collab ⟨some c, online, some (l1 ++ bad :: l2), days, dfrom, dto⟩ cid)
        bad hbad l1 l2 (initSt existed)
      exact ⟨hA.1, hA.2.1, hA.2.2.2.2, hB⟩
    | none =>
      have u1 : getEvents env collab ⟨some c, online, some (l1 ++ bad :: l2), days, dfrom, dto⟩
          existed =
          { initSt existed with err := some ("KeyError: " ++ pyLower c) } := by
        simp [getEvents, hcid]
      have u2 : getEvents env collab ⟨some c, online, some (l1 ++ l2), days, dfrom, dto⟩ existed =
          { initSt existed with err := some ("KeyError: " ++ pyLower c) } := by
        simp [getEvents, hcid]
      rw [u1, u2]
      refine ⟨rfl, rfl, rfl, ?_⟩
      intro h
      simp at h

/-- Witness for C1: a request for a valid category together with an
unavailable one behaves as the request for the valid category alone and
emits the warning. -/
theorem radario_C1_witness :
    (getEvents envW1 collabW rpW1 []).events =
      (getEvents envW1 collabW { rpW1 with category := some (["concert"] ++ []) } []).events ∧
    (getEvents envW1 collabW rpW1 []).existed =
      (getEvents envW1 collabW { rpW1 with category := some (["concert"] ++ []) } []).existed ∧
    (getEvents envW1 collabW rpW1 []).err =
      (getEvents envW1 collabW { rpW1 with category := some (["concert"] ++ []) } []).err ∧
    ((getEvents envW1 collabW rpW1 []).err = none →
      warnMsg "badcat" ∈ (getEvents envW1 collabW rpW1 []).warns) :=
  radario_C1 envW1 collabW rpW1 [] ["concert"] [] "badcat" (by decide) rfl

theorem processItems_inv (ctx : Ctx) (ex0 : List String) :
    ∀ (items : List Nat) (st : St),
      (∀ i ∈ items, ((ctx.env.detailResp (toString i)).json).id = i) →
      InvD ex0 st → InvD ex0 (processItems ctx items st) := by
  intro items
  induction items with
  | nil => intro st _ hinv; exact hinv
  | cons i rest ih =>
    intro st hids hinv
    have hidi : ((ctx.env.detailResp (toString i)).json).id = i := hids i (by simp)
    have hrest : ∀ j ∈ rest, ((ctx.env.detailResp (toString j)).json).id = j :=
      fun j hj => hids j (by simp [hj])
    by_cases h1 : st.err.isSome
    · simp only [processItems, h1, if_true]
      exact hinv
    · by_cases h2 : radarioId i ∈ st.existed
      · have e1 : processItems ctx (i :: rest) st = processItems ctx rest st := by
          simp [processItems, h1, h2]
        rw [e1]
        exact ih st hrest hinv
      · by_cases hs : (ctx.env.detailResp (toString i)).status = 200
        · have hg : getEvent ctx.env ctx.collab (some (toString i)) none =
              Except.ok (assemble ctx.collab (ctx.env.detailResp (toString i)).json) := by
            simp [getEvent, fetchById, hs]
          have e1 : processItems ctx (i :: rest) st =
              processItems ctx rest
                { st with
                  events := st.events ++ [assemble ctx.collab (ctx.env.detailResp (toString i)).json],
                  existed := st.existed ++
                    [(assemble ctx.collab (ctx.env.detailResp (toString i)).json).id] } := by
            simp [processItems, h1, h2, hg]
          rw [e1]
          apply ih _ hrest
          obtain ⟨hx, hnotin, hnd⟩ := hinv
          have hidv : (assemble ctx.collab (ctx.env.detailResp (toString i)).json).id =
              radarioId i := by
            rw [assemble_id, hidi]
          have hm : radarioId i ∉ ex0 ∧ radarioId i ∉ st.events.map (fun e => e.id) := by
            rw [hx] at h2
            simpa [List.mem_append, not_or] using h2
          refine ⟨?_, ?_, ?_⟩
          · simp only [List.map_append, List.map_cons, List.map_nil]
            rw [hx, hidv, List.append_assoc]
          · intro e he
            rcases List.mem_append.mp he with hin | hsing
            · exact hnotin e hin
            · have : e = assemble ctx.collab (ctx.env.detailResp (toString i)).json := by
                simpa using hsing
              rw [this, hidv]
              exact hm.1
          · simp only [List.map_append, List.map_cons, List.map_nil]
            rw [hidv]
            rw [List.nodup_append]
            refine ⟨hnd, List.nodup_singleton _, ?_⟩
            intro a ha hb
            have : a = radarioId i := by simpa using hb
            rw [this] at ha
            exact hm.2 ha
        · have hg : getEvent ctx.env ctx.collab (some (toString i)) none =
              Except.error (fetchMsg (ctx.env.detailResp (toString i))) := by
            simp [getEvent, fetchById, hs]
          have e1 : processItems ctx (i :: rest) st =
              { st with err := some (fetchMsg (ctx.env.detailResp (toString i))) } := by
            simp [processItems, h1, h2, hg]
          rw [e1]
          exact hinv

theorem pageLoop_inv (ctx : Ctx) (catId : Option Nat) (ex0 : List String)
    (hdet : ∀ rq : Req, ∀ i ∈ (ctx.env.page rq).getD [],
      ((ctx.env.detailResp (toString i)).json).id = i) :
    ∀ (fuel : Nat) (st : St), InvD ex0 st → InvD ex0 (pageLoop ctx catId fuel st) := by
  intro fuel
  induction fuel with
  | zero => intro st h; exact h
  | succ f ih =>
    intro st h
    rw [pageLoop_succ]
    by_cases ho : 100 < st.offset
    · rw [if_pos ho]; exact h
    · rw [if_neg ho]
      simp only []
      set items := (ctx.env.page (mkReq ctx catId st.offset)).getD [] with hitems
      set st2 := processItems ctx items { st with reqs := st.reqs ++ [mkReq ctx catId st.offset] }
        with hst2
      have h2 : InvD ex0 st2 := by
        rw [hst2]
        exact processItems_inv ctx ex0 items _ (fun i hi => hdet (mkReq ctx catId st.offset) i hi) h
      by_cases he : st2.err.isSome
      · rw [if_pos he]; exact h2
      · rw [if_neg he]
        by_cases hl : items.length < pageLimit
        · rw [if_pos hl]; exact h2
        · rw [if_neg hl]
          exact ih _ h2

theorem catLoop_inv (ctx : Ctx) (ex0 : List String)
    (hdet : ∀ rq : Req, ∀ i ∈ (ctx.env.page rq).getD [],
      ((ctx.env.detailResp (toString i)).json).id = i) :
    ∀ (cats : List String) (st : St), InvD ex0 st → InvD ex0 (catLoop ctx cats st) := by
  intro cats
  induction cats with
  | nil => intro st h; exact h
  | cons c cs ih =>
    intro st h
    by_cases he : st.err.isSome
    · rw [catLoop_of_err ctx _ _ he]; exact h
    · by_cases hc : c ∈ availableCategories ++ [""]
      · have u1 : catLoop ctx (c :: cs) st =
            catLoop ctx cs (pageLoop ctx (catIdOf c) 7 st) := by
          simp [catLoop, he, hc]
        rw [u1]
        exact ih _ (pageLoop_inv ctx (catIdOf c) ex0 hdet 7 st h)
      · have u1 : catLoop ctx (c :: cs) st =
            catLoop ctx cs { st with warns := st.warns ++ [warnMsg c] } := by
          simp [catLoop, he, hc]
        rw [u1]
        exact ih _ h

theorem getEvents_inv (env : Env) (collab : Collab) (rp : ReqParams) (ex : List String)
    (hdet : DetailIdsMatch env) : InvD ex (getEvents env collab rp ex) := by
  have hinit : InvD ex (initSt ex) := ⟨by simp [initSt], by simp [initSt], by simp [initSt]⟩
  obtain ⟨city, online, category, days, dfrom, dto⟩ := rp
  cases city with
  | none =>
    exact catLoop_inv (mkCtx env collab ⟨none, online, category, days, dfrom, dto⟩ 1) ex hdet
      (category.getD [""]) (initSt ex) hinit
  | some c =>
    cases hcid : citiesToId (pyLower c) with
    | some cid =>
      have u1 : getEvents env collab ⟨some c, online, category, days, dfrom, dto⟩ ex =
          catLoop (mkCtx env collab ⟨some c, online, category, days, dfrom, dto⟩ cid)
            (category.getD [""]) (initSt ex) := by
        simp [getEvents, hcid]
      rw [u1]
      exact catLoop_inv (mkCtx env collab ⟨some c, online, category, days, dfrom, dto⟩ cid)
        ex hdet (category.getD [""]) (initSt ex) hinit
    | none =>
      have u1 : getEvents env collab ⟨some c, online, category, days, dfrom, dto⟩ ex =
          { initSt ex with err := some ("KeyError: " ++ pyLower c) } := by
        simp [getEvents, hcid]
      rw [u1]
      exact hinit

/-- Claim C4: with a consistent upstream API, a run never returns an
event whose canonical id was already in the shared seen-id list, the ids
it returns are pairwise distinct, each returned id is appended to the
list, and a second run sharing the same list never returns an event seen
by the first run or present initially. -/
theorem radario_C4 (env : Env) (collab : Collab) (rp : ReqParams) (ex : List String)
    (hdet : DetailIdsMatch env) :
    (∀ e ∈ (getEvents env collab rp ex).events, e.id ∉ ex) ∧
    ((getEvents env collab rp ex).events.map (fun e => e.id)).Nodup ∧
    (getEvents env collab rp ex).existed =
      ex ++ (getEvents env collab rp ex).events.map (fun e => e.id) ∧
    (∀ e ∈ (getEvents env collab rp ((getEvents env collab rp ex).existed)).events,
      e.id ∉ (getEvents env collab rp ex).existed) ∧
    (∀ e ∈ (getEvents env collab rp ((getEvents env collab rp ex).existed)).events,
      e.id ∉ ex ∧ e.id ∉ (getEvents env collab rp ex).events.map (fun e => e.id)) ∧
    (getEvents env collab rp ((getEvents env collab rp ex).existed)).existed =
      (getEvents env collab rp ex).existed ++
        (getEvents env collab rp ((getEvents env collab rp ex).existed)).events.map
          (fun e => e.id) := by
  obtain ⟨h1x, h1n, h1d⟩ := getEvents_inv env collab rp ex hdet
  obtain ⟨h2x, h2n, h2d⟩ := getEvents_inv env collab rp (getEvents env collab rp ex).existed hdet
  refine ⟨h1n, h1d, h1x, h2n, ?_, h2x⟩
  intro e he
  have h := h2n e he
  rw [h1x] at h
  simpa [List.mem_append, not_or] using h

/-- Witness for C4 over a page whose id 3 appears twice: the run emits
ids 3 and 4 once each, records them, and a second run sharing the list
returns nothing new. -/
theorem radario_C4_witness :
    (∀ e ∈ (getEvents envW4 collabW rpW4 []).events, e.id ∉ ([] : List String)) ∧
    ((getEvents envW4 collabW rpW4 []).events.map (fun e => e.id)).Nodup ∧
    (getEvents envW4 collabW rpW4 []).existed =
      [] ++ (getEvents envW4 collabW rpW4 []).events.map (fun e => e.id) ∧
    (∀ e ∈ (getEvents envW4 collabW rpW4 ((getEvents envW4 collabW rpW4 []).existed)).events,
      e.id ∉ (getEvents envW4 collabW rpW4 []).existed) ∧
    (∀ e ∈ (getEvents envW4 collabW rpW4 ((getEvents envW4 collabW rpW4 []).existed)).events,
      e.id ∉ ([] : List String) ∧
        e.id ∉ (getEvents envW4 collabW rpW4 []).events.map (fun e => e.id)) ∧
    (getEvents envW4 collabW rpW4 ((getEvents envW4 collabW rpW4 []).existed)).existed =
      (getEvents envW4 collabW rpW4 []).existed ++
        (getEvents envW4 collabW rpW4 ((getEvents envW4 collabW rpW4 []).existed)).events.map
          (fun e => e.id) :=
  radario_C4 envW4 collabW rpW4 [] (by
    intro rq i hi
    by_cases ho : rq.offset = 0
    · simp [envW4, ho] at hi
      rcases hi with rfl | rfl | rfl
      · decide
      · decide
      · decide
    · simp [envW4, ho] at hi)

theorem pageLoop_reqs (ctx : Ctx) (catId : Option Nat) :
    ∀ (fuel : Nat) (st : St), st.err = none →
      ∃ n : Nat,
        (pageLoop ctx catId fuel st).reqs =
          st.reqs ++ (List.range n).map (fun k => mkReq ctx catId (st.offset + 20 * k)) ∧
        n ≤ fuel ∧
        (∀ k, k < n → st.offset + 20 * k ≤ 100) ∧
        (∀ k, k + 1 < n →
          pageLimit ≤ ((ctx.env.page (mkReq ctx catId (st.offset + 20 * k))).getD []).length) := by
  intro fuel
  induction fuel with
  | zero =>
    intro st herr
    exact ⟨0, by simp [pageLoop], Nat.le_refl 0,
      fun k hk => absurd hk (by omega), fun k hk => absurd hk (by omega)⟩
  | succ f ih =>
    intro st herr
    rw [pageLoop_succ]
    by_cases ho : 100 < st.offset
    · rw [if_pos ho]
      exact ⟨0, by simp, by omega,
        fun k hk => absurd hk (by omega), fun k hk => absurd hk (by omega)⟩
    · rw [if_neg ho]
      simp only []
      set items := (ctx.env.page (mkReq ctx catId st.offset)).getD [] with hitems
      set st2 := processItems ctx items { st with reqs := st.reqs ++ [mkReq ctx catId st.offset] }
        with hst2
      have h2reqs : st2.reqs = st.reqs ++ [mkReq ctx catId st.offset] := by
        rw [hst2, processItems_reqs]
      have h2off : st2.offset = st.offset := by
        rw [hst2, processItems_offset]
      have hone : st.reqs ++ [mkReq ctx catId st.offset] =
          st.reqs ++ (List.range 1).map (fun k => mkReq ctx catId (st.offset + 20 * k)) := by
        simp [List.range_succ]
      by_cases he : st2.err.isSome
      · rw [if_pos he]
        refine ⟨1, by rw [h2reqs, hone], by omega, ?_, fun k hk => absurd hk (by omega)⟩
        intro k hk
        have hk0 : k = 0 := by omega
        subst hk0
        omega
      · rw [if_neg he]
        by_cases hl : items.length < pageLimit
        · rw [if_pos hl]
          refine ⟨1, by rw [h2reqs, hone], by omega, ?_, fun k hk => absurd hk (by omega)⟩
          intro k hk
          have hk0 : k = 0 := by omega
          subst hk0
          omega
        · rw [if_neg hl]
          have h3err : ({ st2 with offset := st2.offset + (pageLimit - 1) } : St).err = none := by
            simp only []
            exact Option.not_isSome_iff_eq_none.mp he
          obtain ⟨n, hn, hnle, hnoff, hnfull⟩ :=
            ih { st2 with offset := st2.offset + (pageLimit - 1) } h3err
          have h3off : ({ st2 with offset := st2.offset + (pageLimit - 1) } : St).offset =
              st.offset + 20 := by
            simp only []
            rw [h2off]
            norm_num [pageLimit]
          have h3reqs : ({ st2 with offset := st2.offset + (pageLimit - 1) } : St).reqs =
              st.reqs ++ [mkReq ctx catId st.offset] := by
            simp only []
            exact h2reqs
          rw [h3off] at hnoff hnfull
          refine ⟨n + 1, ?_, by omega, ?_, ?_⟩
          · rw [hn, h3reqs, h3off, List.append_assoc]
            congr 1
            rw [List.range_succ_eq_map, List.map_cons, List.map_map, List.singleton_append]
            congr 1
            apply List.map_congr_left
            intro k hk
            have harith : st.offset + 20 + 20 * k = st.offset + 20 * (k + 1) := by ring
            simp [Function.comp, harith]
          · intro k hk
            cases k with
            | zero =>
              simp only [Nat.mul_zero, Nat.add_zero]
              omega
            | succ j =>
              have hj := hnoff j (by omega)
              omega
          · intro k hk
            cases k with
            | zero =>
              have harith : st.offset + 20 * 0 = st.offset := by ring
              rw [harith, ← hitems]
              omega
            | succ j =>
              have hj := hnfull j (by omega)
              have harith : st.offset + 20 * (j + 1) = st.offset + 20 + 20 * j := by ring
              rw [harith]
              exact hj

/-- Claim C6: in one category run of the paginator, at most 6 page
requests are issued, the requested offsets start at the current offset
and advance by the page limit minus one per full page, no request is
issued at an offset above 100, and every request except the last one got
a full page, so a short page stops the requesting. -/
theorem radario_C6 (ctx : Ctx) (catId : Option Nat) (st : St)
    (herr : st.err = none) (hreq : st.reqs = []) :
    (pageLoop ctx catId 7 st).reqs.length ≤ 6 ∧
    (pageLoop ctx catId 7 st).reqs.map (fun q => q.offset) =
      (List.range (pageLoop ctx catId 7 st).reqs.length).map
        (fun k => st.offset + (pageLimit - 1) * k) ∧
    (∀ q ∈ (pageLoop ctx catId 7 st).reqs, q.offset ≤ 100) ∧
    (∀ q ∈ (pageLoop ctx catId 7 st).reqs.dropLast,
      pageLimit ≤ ((ctx.env.page q).getD []).length) := by
  obtain ⟨n, hr, hle, hoff, hfull⟩ := pageLoop_reqs ctx catId 7 st herr
  rw [hreq, List.nil_append] at hr
  have hlen : (pageLoop ctx catId 7 st).reqs.length = n := by rw [hr]; simp
  have hn6 : n ≤ 6 := by
    by_contra hcon
    have h6 := hoff 6 (by omega)
    omega
  refine ⟨by omega, ?_, ?_, ?_⟩
  · rw [hlen, hr, List.map_map]
    apply List.map_congr_left
    intro k hk
    simp [mkReq, Function.comp, pageLimit]
  · intro q hq
    rw [hr] at hq
    obtain ⟨k, hk, rfl⟩ := List.mem_map.mp hq
    have := hoff k (List.mem_range.mp hk)
    simpa [mkReq] using this
  · intro q hq
    rw [hr] at hq
    cases n with
    | zero => simp at hq
    | succ m =>
      simp only [List.range_succ, List.map_append, List.map_cons, List.map_nil,
        List.dropLast_concat] at hq
      obtain ⟨k, hk, rfl⟩ := List.mem_map.mp hq
      have hkm : k < m := List.mem_range.mp hk
      exact hfull k (by omega)

/-- Witness for C6 over a run whose first page is full and whose second
page is empty: two requests, offsets 0 and 20, first page full. -/
theorem radario_C6_witness :
    (pageLoop ctxW6 none 7 (initSt [])).reqs.length ≤ 6 ∧
    (pageLoop ctxW6 none 7 (initSt [])).reqs.map (fun q => q.offset) =
      (List.range (pageLoop ctxW6 none 7 (initSt [])).reqs.length).map
        (fun k => (initSt []).offset + (pageLimit - 1) * k) ∧
    (∀ q ∈ (pageLoop ctxW6 none 7 (initSt [])).reqs, q.offset ≤ 100) ∧
    (∀ q ∈ (pageLoop ctxW6 none 7 (initSt [])).reqs.dropLast,
      pageLimit ≤ ((ctxW6.env.page q).getD []).length) :=
  radario_C6 ctxW6 none (initSt []) rfl rfl

theorem pageLoop_fuel_step (ctx : Ctx) (catId : Option Nat) :
    ∀ (f : Nat) (st : St), 100 < st.offset + 20 * f →
      pageLoop ctx catId (f + 1) st = pageLoop ctx catId f st := by
  intro f
  induction f with
  | zero =>
    intro st h
    have ho : 100 < st.offset := by omega
    rw [pageLoop_succ, if_pos ho]
    rfl
  | succ f ih =>
    intro st h
    by_cases ho : 100 < st.offset
    · rw [pageLoop_succ, if_pos ho, pageLoop_succ, if_pos ho]
    · rw [pageLoop_succ ctx catId (f + 1) st, pageLoop_succ ctx catId f st, if_neg ho, if_neg ho]
      simp only []
      set items := (ctx.env.page (mkReq ctx catId st.offset)).getD [] with hitems
      set st2 := processItems ctx items { st with reqs := st.reqs ++ [mkReq ctx catId st.offset] }
        with hst2
      by_cases he : st2.err.isSome
      · rw [if_pos he, if_pos he]
      · rw [if_neg he, if_neg he]
        by_cases hl : items.length < pageLimit
        · rw [if_pos hl, if_pos hl]
        · rw [if_neg hl, if_neg hl]
          apply ih
          have h2off : st2.offset = st.offset := by rw [hst2, processItems_offset]
          simp only []
          rw [h2off]
          have hp : pageLimit - 1 = 20 := by norm_num [pageLimit]
          rw [hp]
          omega

/-- The fuel argument 7 of the embedded page loop is never exhausted:
raising it changes nothing, for every starting state, because the offset
grows by 20 per iteration and no request happens beyond offset 100. -/
theorem pageLoop_seven_eq_eight (ctx : Ctx) (catId : Option Nat) (st : St) :
    pageLoop ctx catId 8 st = pageLoop ctx catId 7 st :=
  pageLoop_fuel_step ctx catId 7 st (by omega)

/-- Claim C2, divergence witness: with explicit date_from and date_to
request parameters and no days parameter, the run is identical to the
run without them, and the issued page request carries the default range
from tomorrow (day 1001 for today 1000) to tomorrow plus 8; the
documented date_from/date_to parameters are never read. -/
theorem radario_C2_dates_ignored :
    getEvents envW2 collabW rpW2 [] =
      getEvents envW2 collabW { rpW2 with dateFrom := none, dateTo := none } [] ∧
    (getEvents envW2 collabW rpW2 []).reqs.map (fun q => (q.fromD, q.toD)) = [(1001, 1009)] := by
  constructor
  · decide
  · decide
